import Mathlib

/-!
# Verification of the S3 object-store filesystem adapter and backend factory registry

Shallow embedding of `internal/fs/fs_s3.go` (both the `s3FS` and the `FS3`
variants, whose `s3File` method bodies are line-identical apart from logging)
and of `internal/backend/location/registry.go`.

Modelling conventions:
* Go strings are Lean `String`; byte contents are `List Nat`; `time.Time` is a
  `Nat` tick; `int64` is `Int` (no claim depends on 64-bit wrap-around).
* The minio client is an environment record of functions (`Client`): the code
  under verification only observes the client through `StatObject`,
  `ListObjects` and `GetObject` calls, so each is a field.  A listing channel
  is embedded as the list of entries it delivers, in delivery order.
* Fallible Go calls returning `(T, error)` become `Except S3Error T`.
* A handle's cancellable `context.Context` is embedded as a Boolean
  `ctxCancelled` flag recording whether `cancel` was invoked.
-/

namespace S3AdapterProof

/-- Errors surfaced by the object store or by client-side validation.
`invalidRange` stands for minio's `SetRange` "Invalid range specified" error;
`negativeSeek` for a seek before the start of a stream. -/
inductive S3Error
  | noSuchKey
  | transport (code : Nat)
  | invalidRange
  | negativeSeek
deriving DecidableEq

/-- Decide whether an `Except` is in the error case (Go: `err != nil`). -/
def isErr {ε α : Type} : Except ε α → Bool
  | .error _ => true
  | .ok _ => false

/-! ## String helpers (Go `strings` / `path/filepath` functions, slash paths)

These embed the exact Go standard-library behaviour used by the source, as
structural recursion over `String.data` so that the kernel can evaluate them
on concrete inputs. -/

/-- Go `strings.HasSuffix(s, "/")`: true iff the last character is `'/'`. -/
def hasSuffixSlash (s : String) : Bool :=
  s.data.getLast? = some '/'

/-- Go `strings.TrimRight(s, "/")`: remove every trailing `'/'`. -/
def trimTrailingSlash (s : String) : String :=
  ⟨(s.data.reverse.dropWhile (fun c => c == '/')).reverse⟩

/-- Go `strings.TrimPrefix(s, "/")`: remove one leading `'/'` if present. -/
def trimLeadingSlash (s : String) : String :=
  match s.data with
  | '/' :: rest => ⟨rest⟩
  | _ => s

/-- Split a character list at every `'/'` (Go `strings.Split(s, "/")`). -/
def splitSlash : List Char → List (List Char)
  | [] => [[]]
  | c :: rest =>
    let r := splitSlash rest
    if c = '/' then [] :: r
    else
      match r with
      | [] => [[c]]
      | h :: t => (c :: h) :: t

/-- Join path elements with single slashes. -/
def joinSlash : List (List Char) → List Char
  | [] => []
  | [e] => e
  | e :: rest => e ++ '/' :: joinSlash rest

/-- Go `path/filepath.Clean` for slash-separated (unix) paths: drop empty and
`"."` elements, resolve `".."` against a stack (absorbing at the root,
accumulating leading `".."` in relative paths), and return `"."` for an empty
result.  This is the standard structural statement of Go's lazybuf loop. -/
def clean (path : String) : String :=
  if path.data = [] then "."
  else
    let rooted := path.data.head? = some '/'
    let elems := (splitSlash path.data).filter (fun e => e ≠ [] && e ≠ ['.'])
    let stack := elems.foldl
      (fun (st : List (List Char)) e =>
        if e = ['.', '.'] then
          match st with
          | [] => if rooted then [] else [['.', '.']]
          | top :: rest => if top = ['.', '.'] then e :: top :: rest else rest
        else e :: st) []
    let out := joinSlash stack.reverse
    if rooted then ⟨'/' :: out⟩
    else if out = [] then "." else ⟨out⟩

/-- Go `strings.Cut(path, "/")`: split at the first slash; the Boolean records
whether a slash was found (not found leaves the remainder empty). -/
def cutSlash : List Char → List Char × List Char × Bool
  | [] => ([], [], false)
  | c :: rest =>
    if c = '/' then ([], rest, true)
    else
      let (b, a, found) := cutSlash rest
      (c :: b, a, found)

/-! ## Object-store environment model -/

/-- Metadata returned by `client.StatObject` (minio `ObjectInfo` as read by
the adapter: only `Size` and `LastModified` are consumed). -/
structure ObjectMeta where
  size : Int
  lastModified : Nat
deriving DecidableEq

/-- One entry delivered on a `client.ListObjects` channel (minio
`ObjectInfo` as read by the adapter).  An entry produced for a listing
failure carries `err` and zero values for the other fields. -/
structure ObjectInfo where
  key : String := ""
  size : Int := 0
  lastModified : Nat := 0
  err : Option S3Error := none
deriving DecidableEq

/-- HTTP byte range as assembled by minio `GetObjectOptions.SetRange`:
`fromStart s` is `bytes=s-`, `bounded s e` is `bytes=s-e`, `suffix n` is the
suffix range `bytes=-n` (the last `n` bytes). -/
inductive ByteRange
  | fromStart (s : Int)
  | bounded (s e : Int)
  | suffix (n : Int)
deriving DecidableEq

/-- minio `GetObjectOptions.SetRange(start, end)`: the exact case analysis of
the library function — `start == 0 && end < 0` yields a suffix range,
`0 < start && end == 0` an open range, `0 <= start && start <= end` a bounded
range, and anything else is the "Invalid range specified" error. -/
def setRange (start e : Int) : Except S3Error ByteRange :=
  if start = 0 ∧ e < 0 then .ok (.suffix (-e))
  else if 0 < start ∧ e = 0 then .ok (.fromStart start)
  else if 0 ≤ start ∧ start ≤ e then .ok (.bounded start e)
  else .error .invalidRange

/-- Byte-range semantics of an HTTP ranged GET against content `cont`
(`none` = no `Range` header = full object).  A suffix range of `n ≥ length`
returns the whole content, per RFC 9110. -/
def applyRange (cont : List Nat) : Option ByteRange → List Nat
  | none => cont
  | some (.fromStart s) => cont.drop s.toNat
  | some (.bounded s e) => (cont.take (e.toNat + 1)).drop s.toNat
  | some (.suffix n) => cont.drop (cont.length - n.toNat)

/-- A read stream returned by `client.GetObject` (minio `*Object`): the bytes
the ranged GET will deliver, a cursor, and the error its `Close` reports. -/
structure ObjectStream where
  content : List Nat
  pos : Nat := 0
  closeErr : Option S3Error := none
deriving DecidableEq

/-- The minio client as seen by the adapter: an environment record giving the
outcome of each remote operation.  `listObjects` takes the listing prefix and
the optional `MaxKeys` bound and returns the entries the channel delivers;
`getObject` is the deferred ranged GET (its validation never fails for the
bucket/key pairs the adapter passes, so it is total). -/
structure Client where
  statObject : String → String → Except S3Error ObjectMeta
  listObjects : String → String → Option Nat → List ObjectInfo
  getObject : String → String → Option ByteRange → ObjectStream

/-! ## The adapter's data model -/

/-- `s3FileInfo`: bucket, key, size, modification time, directory flag. -/
structure S3FileInfo where
  bucket : String
  key : String
  size : Int
  modTime : Nat
  isDir : Bool
deriving DecidableEq

/-- `s3File`: one opened path.  `ctxCancelled` embeds the handle's cancellable
request context (`true` once `cancel` has run); `object` is the at-most-one
open read stream; `list` the remaining entries of the at-most-one open
listing channel (`some []` is an exhausted but still attached channel). -/
structure S3File where
  bucket : String
  key : String
  ctxCancelled : Bool := false
  object : Option ObjectStream := none
  list : Option (List ObjectInfo) := none
deriving DecidableEq

/-- `obj_file_name`: display name of a `(bucket, key)` pair — the last
non-empty path segment of the key after stripping trailing separators, or the
bucket when the key is empty. -/
def obj_file_name (bucket key : String) : String :=
  if key = "" then bucket
  else
    let trimkey := trimTrailingSlash key
    if trimkey.data.contains '/' then
      ⟨(trimkey.data.reverse.takeWhile (fun c => c != '/')).reverse⟩
    else trimkey

/-- The probe/listing prefix both `Stat` and `Readdir` compute:
`strings.TrimRight(key, "/")`, plus a trailing separator when non-empty. -/
def probePfx (key : String) : String :=
  let p := trimTrailingSlash key
  if p = "" then "" else p ++ "/"

/-! ## Stat -/

/-- The Go guard `&err != &it.Err && &err != &done` inside `Stat`'s
directory-probe loop compares the addresses of distinct local variables,
which are always unequal, so the guard is the constant `true`; the embedding
records that constant explicitly. -/
def errAddrGuard : Bool := true

/-- The body of `Stat`'s probe loop over the bounded listing: an entry
carrying an error is recorded into `err` (the guard always passes; the
`cancel(it.Err)` call only affects entries the channel no longer delivers,
which the entry list already reflects), and any entry whose key differs from
the probe prefix marks the path as a directory. -/
def statProbeLoop (pfx : String) :
    List ObjectInfo → Option S3Error → Bool → Option S3Error × Bool
  | [], err, isDir => (err, isDir)
  | it :: rest, err, isDir =>
    let err' := match it.err with
      | some e => if errAddrGuard then some e else err
      | none => err
    let isDir' := if it.key ≠ pfx then true else isDir
    statProbeLoop pfx rest err' isDir'

/-- `(*s3File).Stat`: a key ending in the separator is a directory by
construction; otherwise stat the exact key, and on failure discard that error
and probe with a 2-entry listing under `probePfx key`.  After the loop the
recorded probe error (if any, and the address guard against `done` always
passes) is returned; otherwise a `FileInfo` with the derived directory flag,
size `0` and `modTime = now` for anything that is not a statted object. -/
def S3File.stat (c : Client) (now : Nat) (f : S3File) : Except S3Error S3FileInfo :=
  if hasSuffixSlash f.key then
    .ok { bucket := f.bucket, key := f.key, size := 0, modTime := now, isDir := true }
  else
    match c.statObject f.bucket f.key with
    | .ok m =>
      .ok { bucket := f.bucket, key := f.key, size := m.size,
            modTime := m.lastModified, isDir := false }
    | .error _ =>
      let pfx := probePfx f.key
      match statProbeLoop pfx (c.listObjects f.bucket pfx (some 2)) none false with
      | (some e, d) =>
        if errAddrGuard then .error e
        else .ok { bucket := f.bucket, key := f.key, size := 0, modTime := now, isDir := d }
      | (none, d) =>
        .ok { bucket := f.bucket, key := f.key, size := 0, modTime := now, isDir := d }

/-! ## Close -/

/-- Observable steps `Close` performs, in order. -/
inductive CloseStep
  | cancelCtx
  | drainList (entries : List ObjectInfo)
  | closeStream
deriving DecidableEq

/-- Result of `Close`: the returned error, the handle afterwards, and the
ordered trace of steps taken. -/
structure CloseResult where
  err : Option S3Error
  file : S3File
  steps : List CloseStep
deriving DecidableEq

/-- `(*s3File).Close`: cancel the handle's context, drain the whole remaining
listing channel (if one was attached) and discard it, then close the read
stream if one is open, returning its close error; `nil` otherwise.  The
drained entries are recorded in the trace. -/
def S3File.close (f : S3File) : CloseResult :=
  let f1 : S3File := { f with ctxCancelled := true }
  let (f2, drainSteps) :=
    match f1.list with
    | some l => ({ f1 with list := none }, [CloseStep.drainList l])
    | none => (f1, ([] : List CloseStep))
  match f2.object with
  | some st =>
    { err := st.closeErr, file := f2,
      steps := [CloseStep.cancelCtx] ++ drainSteps ++ [CloseStep.closeStream] }
  | none =>
    { err := none, file := f2, steps := [CloseStep.cancelCtx] ++ drainSteps }

/-! ## Seek and Read -/

/-- Go `io.Seeker` whence values (`io.SeekStart`, `io.SeekCurrent`,
`io.SeekEnd`); the source's `else` branch covers everything that is not
`io.SeekEnd`. -/
inductive Whence
  | seekStart
  | seekCurrent
  | seekEnd
deriving DecidableEq

/-- Native seek on an already-open stream (minio `Object.Seek`, embedded with
the standard `io.Seeker` semantics over the stream's delivered bytes). -/
def streamSeek (st : ObjectStream) (offset : Int) (whence : Whence) :
    Except S3Error (Int × ObjectStream) :=
  let base : Int := match whence with
    | .seekStart => 0
    | .seekCurrent => st.pos
    | .seekEnd => st.content.length
  let np := base + offset
  if np < 0 then .error .negativeSeek
  else .ok (np, { st with pos := np.toNat })

/-- The byte range `Seek` attaches to the upcoming `GetObject` when no stream
is open yet: no range for offset `0` (whatever the whence); otherwise
`SetRange(0, -offset)` for `SeekEnd` and `SetRange(offset, 0)` for every
other whence. -/
def seekRange (offset : Int) (whence : Whence) : Except S3Error (Option ByteRange) :=
  if offset ≠ 0 then
    if whence = .seekEnd then (setRange 0 (-offset)).map some
    else (setRange offset 0).map some
  else .ok none

/-- `(*s3File).Seek`: delegate to the open stream if any; otherwise translate
the request into a byte range, fetch the object lazily, and return the raw
`offset` argument as the resulting offset. -/
def S3File.seek (c : Client) (f : S3File) (offset : Int) (whence : Whence) :
    Except S3Error (Int × S3File) :=
  match f.object with
  | some st =>
    match streamSeek st offset whence with
    | .ok (p, st') => .ok (p, { f with object := some st' })
    | .error e => .error e
  | none =>
    match seekRange offset whence with
    | .error e => .error e
    | .ok o => .ok (offset, { f with object := some (c.getObject f.bucket f.key o) })

/-- Reading from an open stream: deliver up to `bufLen` of the remaining
bytes and advance the cursor (end-of-stream is the empty result). -/
def streamRead (st : ObjectStream) (bufLen : Nat) : List Nat × ObjectStream :=
  let bytes := (st.content.drop st.pos).take bufLen
  (bytes, { st with pos := st.pos + bytes.length })

/-- `(*s3File).Read`: if no stream is open yet, implicitly `Seek(0, start)`
first, then read from the stream. -/
def S3File.read (c : Client) (f : S3File) (bufLen : Nat) :
    Except S3Error (List Nat × S3File) :=
  match f.object with
  | none =>
    match f.seek c 0 .seekStart with
    | .error e => .error e
    | .ok (_, f') =>
      match f'.object with
      | some st =>
        let (bs, st') := streamRead st bufLen
        .ok (bs, { f' with object := some st' })
      | none => .ok ([], f')
  | some st =>
    let (bs, st') := streamRead st bufLen
    .ok (bs, { f with object := some st' })

/-! ## Readdir -/

/-- The consumption loop of `Readdir` over the listing channel: an error
entry aborts the whole call (leaving the rest of the channel attached); an
entry whose key equals the prefix, or whose key plus a separator equals the
prefix, is skipped; anything else is appended as a `FileInfo` classified as a
directory iff its key ends in the separator, stopping once `nmax` entries
are collected.  Returns the result and the channel remainder. -/
def readdirLoop (bucket pfx : String) (nmax : Nat) (files : List S3FileInfo) :
    List ObjectInfo → Except S3Error (List S3FileInfo) × List ObjectInfo
  | [] => (.ok files, [])
  | it :: rest =>
    match it.err with
    | some e => (.error e, rest)
    | none =>
      if it.key = pfx ∨ it.key ++ "/" = pfx then
        readdirLoop bucket pfx nmax files rest
      else
        let files' := files ++ [{ bucket := bucket, key := it.key, size := it.size,
                                  modTime := it.lastModified,
                                  isDir := hasSuffixSlash it.key }]
        if nmax ≤ files'.length then (.ok files', rest)
        else readdirLoop bucket pfx nmax files' rest

/-- `(*s3File).Readdir`: `n ≤ 0` means the default page size `1000`; the
listing channel is created lazily on first call (unbounded, under
`probePfx key`) and reused — the updated handle keeps whatever part of the
channel the loop did not consume. -/
def S3File.readdir (c : Client) (f : S3File) (n : Int) :
    Except S3Error (List S3FileInfo) × S3File :=
  let nmax : Nat := if n ≤ 0 then 1000 else n.toNat
  let pfx := probePfx f.key
  let chan := match f.list with
    | some l => l
    | none => c.listObjects f.bucket pfx none
  let (res, rest) := readdirLoop f.bucket pfx nmax [] chan
  (res, { f with list := some rest })

/-- `(*s3File).Readdirnames`: `Readdir` then project each entry's name. -/
def S3File.readdirnames (c : Client) (f : S3File) (n : Int) :
    Except S3Error (List String) × S3File :=
  let (res, f') := f.readdir c n
  match res with
  | .error e => (.error e, f')
  | .ok items => (.ok (items.map (fun i => obj_file_name i.bucket i.key)), f')

/-! ## Filesystem-level operations (the two variants) -/

/-- `(*s3FS).OpenFile` (fixed-bucket variant): purely local — clean the path,
strip one leading separator to get the key, and bind a fresh uncancelled
context; no stream, no listing. -/
def s3FS_openFile (bucket path : String) : S3File :=
  { bucket := bucket, key := trimLeadingSlash (clean path),
    ctxCancelled := false, object := none, list := none }

/-- `(*s3FS).Stat`: open the path, stat the handle, and (via `defer`) close
it before returning; the pair also exposes the handle state after return. -/
def s3FS_stat (c : Client) (bucket : String) (now : Nat) (path : String) :
    Except S3Error S3FileInfo × S3File :=
  let f := s3FS_openFile bucket path
  let r := S3File.stat c now f
  let cr := S3File.close f
  (r, cr.file)

/-- `obj_parse_path` (bucket-agnostic `FS3` variant): clean the path, strip
one leading separator, and cut at the first separator into `(bucket, key)`. -/
def obj_parse_path (path : String) : String × String :=
  let p := trimLeadingSlash (clean path)
  (⟨(cutSlash p.data).1⟩, ⟨(cutSlash p.data).2.1⟩)

/-- `(*FS3).OpenFile`: decompose the path into `(bucket, key)` and bind a
fresh uncancelled context. -/
def FS3_openFile (path : String) : S3File :=
  { bucket := (obj_parse_path path).1, key := (obj_parse_path path).2,
    ctxCancelled := false, object := none, list := none }

/-- `(*FS3).Stat`: open the path and stat the handle — the source returns
without ever calling `Close`, so the pair's second component is the handle
exactly as `Stat` left it. -/
def FS3_stat (c : Client) (now : Nat) (path : String) :
    Except S3Error S3FileInfo × S3File :=
  let f := FS3_openFile path
  (S3File.stat c now f, f)

/-! ## Backend factory registry (`internal/backend/location/registry.go`)

The Go `Factory` is an interface; the registry is embedded polymorphically
over the implementing type `F`, with the `Scheme()` method passed as
`schemeOf`.  The scheme-to-factory map is an association list looked up by
key; `Register` panicking is embedded as the `none` case of the result. -/

/-- `Registry`: the process-wide scheme → factory table. -/
structure Registry (F : Type) where
  factories : List (String × F)

/-- `(*Registry).Lookup`: pure map read, `none` when the scheme is absent
(Go's nil zero value for a missing map key). -/
def Registry.lookup {F : Type} (r : Registry F) (scheme : String) : Option F :=
  r.factories.lookup scheme

/-- `(*Registry).Register`: `panic("duplicate backend")` — embedded as
`none` — when a factory under the same scheme is already present; otherwise
store the factory under its scheme. -/
def Registry.register {F : Type} (schemeOf : F → String) (r : Registry F) (f : F) :
    Option (Registry F) :=
  match r.lookup (schemeOf f) with
  | some _ => none
  | none => some ⟨(schemeOf f, f) :: r.factories⟩

/-- Errors of the factory layer; `unsupportedFilesystemType scheme` embeds
`errors.Fatalf("unsupported filesystem type %q", scheme)`. -/
inductive LocErr
  | unsupportedFilesystemType (scheme : String)
  | other (msg : String)
deriving DecidableEq

/-- `http.RoundTripper`, consumed opaquely. -/
def RoundTripper : Type := Unit

/-- `limiter.Limiter`, consumed opaquely. -/
def Limiter : Type := Unit

/-- `genericBackendFactory[C, T]` with filesystem type `F`: the strongly
typed function bundle behind the scheme-agnostic `Factory` interface.  The
`interface{}`-level type recovery is the identity in a typed embedding. -/
structure GenericBackendFactory (C B F : Type) where
  scheme : String
  parseConfigFn : String → Except LocErr C
  stripPasswordFn : Option (String → String)
  createFn : C → RoundTripper → Limiter → Except LocErr B
  openFn : C → RoundTripper → Limiter → Except LocErr B
  openFilesystemFn : C → RoundTripper → Limiter → Except LocErr F

/-- `(*genericBackendFactory).StripPassword`: the backend's redactor when
provided, the raw string unchanged otherwise. -/
def GenericBackendFactory.stripPassword {C B F : Type}
    (fac : GenericBackendFactory C B F) (s : String) : String :=
  match fac.stripPasswordFn with
  | some fn => fn s
  | none => s

/-- `NewHTTPBackendFactory`: threads the shared HTTP transport and ignores
the rate limiter; a backend supplying no `openFilesystemFn` (Go `nil`, here
`none`) gets the "unsupported filesystem type" default. -/
def NewHTTPBackendFactory (C B F : Type) (scheme : String)
    (parseConfigFn : String → Except LocErr C)
    (stripPasswordFn : Option (String → String))
    (createFn : C → RoundTripper → Except LocErr B)
    (openFn : C → RoundTripper → Except LocErr B)
    (openFilesystemFn : Option (C → RoundTripper → Except LocErr F)) :
    GenericBackendFactory C B F :=
  { scheme := scheme
    parseConfigFn := parseConfigFn
    stripPasswordFn := stripPasswordFn
    createFn := fun cfg rt _ => createFn cfg rt
    openFn := fun cfg rt _ => openFn cfg rt
    openFilesystemFn := fun cfg rt _ =>
      match openFilesystemFn with
      | none => .error (.unsupportedFilesystemType scheme)
      | some fn => fn cfg rt }

/-- `NewLimitedBackendFactory`: threads the rate limiter and ignores the
transport; same "unsupported filesystem type" default. -/
def NewLimitedBackendFactory (C B F : Type) (scheme : String)
    (parseConfigFn : String → Except LocErr C)
    (stripPasswordFn : Option (String → String))
    (createFn : C → Limiter → Except LocErr B)
    (openFn : C → Limiter → Except LocErr B)
    (openFilesystemFn : Option (C → Limiter → Except LocErr F)) :
    GenericBackendFactory C B F :=
  { scheme := scheme
    parseConfigFn := parseConfigFn
    stripPasswordFn := stripPasswordFn
    createFn := fun cfg _ lim => createFn cfg lim
    openFn := fun cfg _ lim => openFn cfg lim
    openFilesystemFn := fun cfg _ lim =>
      match openFilesystemFn with
      | none => .error (.unsupportedFilesystemType scheme)
      | some fn => fn cfg lim }

/-! ## Concrete stores used as witnesses and counterexamples -/

/-- A store holding no object at `"missing"` and nothing under `"missing/"`:
every metadata fetch fails and every listing is empty. -/
def clientEmpty : Client :=
  { statObject := fun _ _ => .error .noSuchKey
    listObjects := fun _ _ _ => []
    getObject := fun _ _ o => { content := applyRange [] o } }

/-- A store whose only object is `"a.txt"`: metadata fetches fail for every
other key, listing under the empty prefix reveals `"a.txt"`, and listing
under any other prefix is empty. -/
def clientRootObj : Client :=
  { statObject := fun _ k =>
      if k = "a.txt" then .ok { size := 3, lastModified := 1 } else .error .noSuchKey
    listObjects := fun _ pfx _ => if pfx = "" then [{ key := "a.txt", size := 3, lastModified := 1 }] else []
    getObject := fun _ _ o => { content := applyRange [7, 8, 9] o } }

/-- A store whose only object is the (legal, if unusual) key `"a//"`. -/
def clientSlashSlash : Client :=
  { statObject := fun _ _ => .error .noSuchKey
    listObjects := fun _ pfx _ =>
      if pfx = "a/" ∨ pfx = "a//" ∨ pfx = "a" ∨ pfx = "" then
        [{ key := "a//", size := 5, lastModified := 3 }]
      else []
    getObject := fun _ _ o => { content := applyRange [] o } }

/-- A store whose only object is `"file.txt"` with 4 bytes of content. -/
def clientFileObj : Client :=
  { statObject := fun _ k =>
      if k = "file.txt" then .ok { size := 4, lastModified := 9 } else .error .noSuchKey
    listObjects := fun _ pfx _ =>
      if pfx = "" ∨ pfx = "file.txt/" then [] else []
    getObject := fun _ k o =>
      { content := applyRange (if k = "file.txt" then [10, 11, 12, 13] else []) o } }

/-- A store whose directory probe delivers two error entries, modelling a
listing that fails mid-flight. -/
def clientProbeErr : Client :=
  { statObject := fun _ _ => .error .noSuchKey
    listObjects := fun _ pfx _ =>
      if pfx = "k/" then [{ err := some (S3Error.transport 1) }, { err := some (S3Error.transport 2) }]
      else []
    getObject := fun _ _ o => { content := applyRange [] o } }

/-- A fresh handle on bucket `"bkt"`, key `"k"`. -/
def fileK : S3File := { bucket := "bkt", key := "k" }

/-- A fresh handle on bucket `"bkt"`, key `"a"`. -/
def fileA : S3File := { bucket := "bkt", key := "a" }

/-- A handle whose listing channel is attached with one undelivered entry
and whose read stream was never opened. -/
def filePartial : S3File :=
  { bucket := "bkt", key := "k", list := some [{ key := "k/rest", size := 1, lastModified := 2 }] }

/-! ## Properties of the Stat probe loop -/

/-- The directory flag computed by the probe loop: true iff it started true
or some delivered entry's key differs from the probe prefix. -/
theorem statProbeLoop_snd (pfx : String) (l : List ObjectInfo) :
    ∀ (e0 : Option S3Error) (d0 : Bool),
      (statProbeLoop pfx l e0 d0).2 = (d0 || l.any (fun it => it.key != pfx)) := by
  induction l with
  | nil => intro e0 d0; simp [statProbeLoop]
  | cons it rest ih =>
    intro e0 d0
    simp only [statProbeLoop, List.any_cons]
    rw [ih]
    by_cases h : it.key = pfx
    · simp [h]
    · simp [h, Bool.or_comm, Bool.or_left_comm]

/-- If no delivered probe entry carries an error, the loop's recorded error
is whatever it started with. -/
theorem statProbeLoop_fst_nil (pfx : String) (l : List ObjectInfo)
    (h : l.filterMap ObjectInfo.err = []) :
    ∀ (e0 : Option S3Error) (d0 : Bool), (statProbeLoop pfx l e0 d0).1 = e0 := by
  induction l with
  | nil => intro e0 d0; rfl
  | cons it rest ih =>
    intro e0 d0
    cases hit : it.err with
    | none =>
      have hrest : rest.filterMap ObjectInfo.err = [] := by
        simpa [List.filterMap_cons, hit] using h
      simp [statProbeLoop, hit, ih hrest]
    | some e => simp [List.filterMap_cons, hit] at h

/-- The loop records the last error delivered on the probe channel. -/
theorem statProbeLoop_fst_last (pfx : String) (l : List ObjectInfo) (e : S3Error)
    (h : (l.filterMap ObjectInfo.err).getLast? = some e) :
    ∀ (e0 : Option S3Error) (d0 : Bool), (statProbeLoop pfx l e0 d0).1 = some e := by
  induction l with
  | nil => simp at h
  | cons it rest ih =>
    intro e0 d0
    cases hit : it.err with
    | none =>
      have h' : (rest.filterMap ObjectInfo.err).getLast? = some e := by
        simpa [List.filterMap_cons, hit] using h
      simp [statProbeLoop, hit, ih h']
    | some e1 =>
      rcases hrest : rest.filterMap ObjectInfo.err with - | ⟨e2, tl⟩
      · have he : e1 = e := by
          simpa [List.filterMap_cons, hit, hrest] using h
        subst he
        simp [statProbeLoop, hit, errAddrGuard, statProbeLoop_fst_nil pfx rest hrest]
      · have h' : (rest.filterMap ObjectInfo.err).getLast? = some e := by
          rw [List.filterMap_cons, hit, hrest, List.getLast?_cons_cons] at h
          rw [hrest]; exact h
        simp [statProbeLoop, hit, ih h']

/-! ## Claim C1 -/

/-- Claim C1 (code behaviour at the failing input): for the derived key
`"missing"` — which does not end in the separator — with the metadata fetch
failing and the bounded probe listing under `"missing/"` empty, `Stat` does
NOT surface a not-found condition: it returns a successful `FileInfo`
describing a regular file of size 0 with the current time. -/
theorem c1_stat_missing_returns_ok :
    S3File.stat clientEmpty 7 (s3FS_openFile "bkt" "missing") =
      .ok { bucket := "bkt", key := "missing", size := 0, modTime := 7, isDir := false } :=
  rfl

/-! ## Claim C2 -/

/-- Claim C2 (counterexample): at path `"/"` (derived key `""`) over a store
whose only object is `"a.txt"`, `Stat` reports is-directory = true, yet the
key does not end in the separator, the metadata fetch fails, and the listing
under `key + separator` (= `"/"`) has no entry differing from that prefix —
so the claim's "exactly when" equivalence is false at this input: the code
probes under the empty prefix, not under `key + separator`. -/
theorem c2_counterexample :
    S3File.stat clientRootObj 7 (s3FS_openFile "bkt" "/") =
      .ok { bucket := "bkt", key := "", size := 0, modTime := 7, isDir := true }
    ∧ hasSuffixSlash (s3FS_openFile "bkt" "/").key = false
    ∧ isErr (clientRootObj.statObject "bkt" "") = true
    ∧ ((clientRootObj.listObjects "bkt" ("" ++ "/") (some 2)).any
        (fun it => it.key != ("" ++ "/"))) = false :=
  ⟨rfl, rfl, rfl, rfl⟩

/-- Claim C2 (amended): whenever `Stat` succeeds, it reports is-directory =
true exactly when the key ends in the separator, or when the metadata fetch
for the exact key fails and the bounded listing under the code's probe
prefix (`trimRight(key, "/") + "/"`, i.e. `key + separator` for non-empty
keys and the empty prefix for the empty key) yields at least one entry whose
key differs from that prefix; and in the directory case the reported size is
0 and the modification time is `now`. -/
theorem c2_stat_isdir_characterisation (c : Client) (now : Nat) (f : S3File)
    (info : S3FileInfo) (h : S3File.stat c now f = .ok info) :
    info.isDir = (hasSuffixSlash f.key ||
      (isErr (c.statObject f.bucket f.key) &&
        (c.listObjects f.bucket (probePfx f.key) (some 2)).any
          (fun it => it.key != probePfx f.key)))
    ∧ (info.isDir = true → info.size = 0 ∧ info.modTime = now) := by
  unfold S3File.stat at h
  by_cases hk : hasSuffixSlash f.key = true
  · rw [if_pos hk] at h
    obtain rfl : _ = info := (Except.ok.injEq _ _).mp h
    simp [hk]
  · rw [if_neg hk] at h
    rw [Bool.not_eq_true] at hk
    cases hso : c.statObject f.bucket f.key with
    | ok m =>
      rw [hso] at h
      obtain rfl : _ = info := (Except.ok.injEq _ _).mp h
      simp [hk, hso, isErr]
    | error e0 =>
      rw [hso] at h
      dsimp only at h
      rcases hloop : statProbeLoop (probePfx f.key)
          (c.listObjects f.bucket (probePfx f.key) (some 2)) none false with ⟨oe, d⟩
      rw [hloop] at h
      cases oe with
      | some e => simp [errAddrGuard] at h
      | none =>
        obtain rfl : _ = info := (Except.ok.injEq _ _).mp h
        have hsnd := statProbeLoop_snd (probePfx f.key)
          (c.listObjects f.bucket (probePfx f.key) (some 2)) none false
        rw [hloop] at hsnd
        simp only at hsnd
        simp [hk, isErr, ← hsnd]

/-- Claim C2 (witness): the amended characterisation applied to the store
holding only `"file.txt"`, for which `Stat` succeeds with a non-directory
`FileInfo`. -/
theorem c2_characterisation_witness :
    (S3FileInfo.mk "bkt" "file.txt" 4 9 false).isDir
      = (hasSuffixSlash (S3File.mk "bkt" "file.txt" false none none).key ||
        (isErr (clientFileObj.statObject "bkt" "file.txt") &&
          (clientFileObj.listObjects "bkt"
            (probePfx (S3File.mk "bkt" "file.txt" false none none).key) (some 2)).any
            (fun it => it.key != probePfx (S3File.mk "bkt" "file.txt" false none none).key)))
    ∧ ((S3FileInfo.mk "bkt" "file.txt" 4 9 false).isDir = true →
        (S3FileInfo.mk "bkt" "file.txt" 4 9 false).size = 0
        ∧ (S3FileInfo.mk "bkt" "file.txt" 4 9 false).modTime = 9) :=
  c2_stat_isdir_characterisation clientFileObj 9
    (S3File.mk "bkt" "file.txt" false none none)
    (S3FileInfo.mk "bkt" "file.txt" 4 9 false) rfl

/-! ## Claim C10 -/

/-- Claim C10: the Go suppression guards compare addresses of distinct local
variables and therefore always hold (`errAddrGuard = true`), so when the
metadata fetch fails and the probe listing delivers error entries, the error
observed during the probe (the last delivered one) is recorded and surfaced
as `Stat`'s error — the synthetic `done` value never suppresses it. -/
theorem c10_probe_errors_surfaced (c : Client) (f : S3File) (now : Nat)
    (e0 e : S3Error)
    (hk : hasSuffixSlash f.key = false)
    (hs : c.statObject f.bucket f.key = .error e0)
    (hl : ((c.listObjects f.bucket (probePfx f.key) (some 2)).filterMap
        ObjectInfo.err).getLast? = some e) :
    errAddrGuard = true ∧ S3File.stat c now f = .error e := by
  refine ⟨rfl, ?_⟩
  unfold S3File.stat
  rw [if_neg (by simp [hk]), hs]
  dsimp only
  rcases hloop : statProbeLoop (probePfx f.key)
      (c.listObjects f.bucket (probePfx f.key) (some 2)) none false with ⟨oe, d⟩
  have hfst := statProbeLoop_fst_last (probePfx f.key)
    (c.listObjects f.bucket (probePfx f.key) (some 2)) e hl none false
  rw [hloop] at hfst
  simp only at hfst
  subst hfst
  simp [errAddrGuard]

/-- Claim C10 (witness): over the store whose probe listing delivers two
transport errors, `Stat` of key `"k"` surfaces the last one. -/
theorem c10_probe_errors_witness :
    errAddrGuard = true
    ∧ S3File.stat clientProbeErr 5 fileK = .error (S3Error.transport 2) :=
  c10_probe_errors_surfaced clientProbeErr fileK 5 .noSuchKey (.transport 2) rfl rfl rfl

/-! ## Claim C3 -/

/-- Invariant of the `Readdir` consumption loop: on success, every collected
entry either was already in the accumulator or survived the skip guard (its
key equals neither the prefix nor the prefix minus its trailing separator)
and is classified as a directory iff its key ends in the separator; and the
collection never exceeds `nmax` when the accumulator started below it. -/
theorem readdirLoop_ok_inv (bucket pfx : String) (nmax : Nat) (l : List ObjectInfo) :
    ∀ (acc files : List S3FileInfo) (rest : List ObjectInfo),
      readdirLoop bucket pfx nmax acc l = (.ok files, rest) →
      acc.length < nmax →
      ((∀ fi ∈ files, fi ∈ acc ∨
        (fi.key ≠ pfx ∧ fi.key ++ "/" ≠ pfx ∧ fi.isDir = hasSuffixSlash fi.key))
      ∧ files.length ≤ nmax) := by
  induction l with
  | nil =>
    intro acc files rest h hlen
    obtain ⟨h1, -⟩ := Prod.mk.injEq .. ▸ h
    obtain rfl : acc = files := (Except.ok.injEq _ _).mp h1
    exact ⟨fun fi hfi => Or.inl hfi, le_of_lt hlen⟩
  | cons it tl ih =>
    intro acc files rest h hlen
    rw [readdirLoop] at h
    cases hit : it.err with
    | some e => rw [hit] at h; simp at h
    | none =>
      rw [hit] at h
      dsimp only at h
      by_cases hskip : it.key = pfx ∨ it.key ++ "/" = pfx
      · rw [if_pos hskip] at h
        exact ih acc files rest h hlen
      · rw [if_neg hskip] at h
        push_neg at hskip
        by_cases hbreak : nmax ≤ acc.length + 1
        · rw [if_pos (by simpa using hbreak)] at h
          obtain ⟨h1, -⟩ := Prod.mk.injEq .. ▸ h
          obtain rfl : _ = files := (Except.ok.injEq _ _).mp h1
          constructor
          · intro fi hfi
            rcases List.mem_append.mp hfi with hin | hin
            · exact Or.inl hin
            · obtain rfl : fi = _ := by simpa using hin
              exact Or.inr ⟨hskip.1, hskip.2, rfl⟩
          · simpa using Nat.succ_le_of_lt hlen
        · rw [if_neg (by simpa using hbreak)] at h
          obtain ⟨hmem, hle⟩ := ih _ files rest h (by simpa using Nat.lt_of_not_le hbreak)
          refine ⟨fun fi hfi => ?_, hle⟩
          rcases hmem fi hfi with hin | hgood
          · rcases List.mem_append.mp hin with h1 | h2
            · exact Or.inl h1
            · obtain rfl : fi = _ := by simpa using h2
              exact Or.inr ⟨hskip.1, hskip.2, rfl⟩
          · exact Or.inr hgood

/-- Claim C3 (counterexample): the store holds the single (legal) key
`"a//"`; `Readdir` on the handle for key `"a"` (listing prefix `"a/"`)
returns that entry even though its key equals the prefix with one trailing
separator appended — the code's guard skips `key == prefix` and
`key + "/" == prefix`, not `key == prefix + "/"`. -/
theorem c3_counterexample :
    (S3File.readdir clientSlashSlash fileA 10).1 =
      .ok [{ bucket := "bkt", key := "a//", size := 5, modTime := 3, isDir := true }]
    ∧ probePfx fileA.key ++ "/" = "a//" :=
  ⟨rfl, rfl⟩

/-- Claim C3 (amended): on a successful `Readdir(n)` no returned entry has a
key equal to the listing prefix itself or equal to the prefix with its
trailing separator removed (the code's guard `key == prefix ||
key + "/" == prefix`); every returned entry is classified as a directory
exactly when its key ends in the separator; and the call collects at most
`n` entries when `n > 0` (at most the default page size 1000 when
`n ≤ 0`). -/
theorem c3_readdir_entries (c : Client) (f : S3File) (n : Int)
    (files : List S3FileInfo) (f' : S3File)
    (h : f.readdir c n = (.ok files, f')) :
    (∀ fi ∈ files, fi.key ≠ probePfx f.key ∧ fi.key ++ "/" ≠ probePfx f.key
      ∧ fi.isDir = hasSuffixSlash fi.key)
    ∧ files.length ≤ (if n ≤ 0 then 1000 else n.toNat) := by
  unfold S3File.readdir at h
  dsimp only at h
  rcases hloop : readdirLoop f.bucket (probePfx f.key)
      (if n ≤ 0 then 1000 else n.toNat) []
      (match f.list with
        | some l => l
        | none => c.listObjects f.bucket (probePfx f.key) none) with ⟨res, rest⟩
  rw [hloop] at h
  obtain ⟨h1, -⟩ := Prod.mk.injEq .. ▸ h
  subst h1
  have h0 : 0 < (if n ≤ 0 then 1000 else n.toNat) := by
    by_cases hn : n ≤ 0
    · simp [hn]
    · simp [hn]; omega
  obtain ⟨hmem, hle⟩ := readdirLoop_ok_inv f.bucket (probePfx f.key) _ _ [] files rest hloop
    (by simpa using h0)
  refine ⟨fun fi hfi => ?_, hle⟩
  rcases hmem fi hfi with hin | hgood
  · simp at hin
  · exact hgood

/-- Claim C3 (witness): the amended statement applied to the `"a//"` store,
where `Readdir` succeeds with one entry. -/
theorem c3_readdir_witness :
    (∀ fi ∈ [S3FileInfo.mk "bkt" "a//" 5 3 true],
      fi.key ≠ probePfx fileA.key ∧ fi.key ++ "/" ≠ probePfx fileA.key
      ∧ fi.isDir = hasSuffixSlash fi.key)
    ∧ [S3FileInfo.mk "bkt" "a//" 5 3 true].length ≤ (if (10 : Int) ≤ 0 then 1000 else (10 : Int).toNat) :=
  c3_readdir_entries clientSlashSlash fileA 10 [S3FileInfo.mk "bkt" "a//" 5 3 true]
    { fileA with list := some [] } rfl

/-! ## Claims C4 and C9 -/

/-- A fresh handle on bucket `"bkt"`, key `"file.txt"`. -/
def fileFileTxt : S3File := { bucket := "bkt", key := "file.txt" }

/-- Claim C4: on a handle with no open read stream, `Seek(0, w)` issues no
byte range for any whence; a positive offset with whence = start issues the
open range `bytes=offset-`; a positive offset with whence = end issues the
suffix range `bytes=-offset`; and, against a store honouring HTTP range
semantics for the object's content, `Seek(N, end)` followed by a `Read` with
a buffer of at least `N` bytes yields exactly the last `N` bytes of an
object of size ≥ `N`. -/
theorem c4_seek_ranges_and_suffix_read (c : Client) (f : S3File) (cont : List Nat)
    (off N : Int) (w : Whence) (bufLen : Nat)
    (hobj : f.object = none)
    (hget : ∀ o, c.getObject f.bucket f.key o =
      { content := applyRange cont o, pos := 0, closeErr := none })
    (hN : 0 < N) (hNle : N ≤ (cont.length : Int)) (hbuf : N.toNat ≤ bufLen) :
    seekRange 0 w = .ok none
    ∧ (0 < off → seekRange off .seekStart = .ok (some (.fromStart off)))
    ∧ (0 < off → seekRange off .seekEnd = .ok (some (.suffix off)))
    ∧ ∃ f', S3File.seek c f N .seekEnd = .ok (N, f')
        ∧ ∃ f'', S3File.read c f' bufLen =
            .ok (cont.drop (cont.length - N.toNat), f'') := by
  have hrange : ∀ m : Int, 0 < m → seekRange m .seekEnd = .ok (some (.suffix m)) := by
    intro m hm
    have hm0 : m ≠ 0 := ne_of_gt hm
    simp [seekRange, setRange, hm0, hm, neg_neg, Except.map]
  refine ⟨by simp [seekRange], ?_, hrange off, ?_⟩
  · intro hoff
    have h0 : off ≠ 0 := ne_of_gt hoff
    simp [seekRange, setRange, h0, hoff, not_lt_of_gt hoff, Except.map]
  · have hseek : S3File.seek c f N .seekEnd =
        .ok (N, { f with object := some { content := cont.drop (cont.length - N.toNat),
                                          pos := 0, closeErr := none } }) := by
      unfold S3File.seek
      rw [hobj, hrange N hN]
      dsimp only
      rw [hget]
      rfl
    have hlen : (cont.drop (cont.length - N.toNat)).length = N.toNat := by
      rw [List.length_drop]
      omega
    have htake : (cont.drop (cont.length - N.toNat)).take bufLen
        = cont.drop (cont.length - N.toNat) :=
      List.take_of_length_le (by rw [hlen]; exact hbuf)
    refine ⟨{ f with object := some { content := cont.drop (cont.length - N.toNat),
                                      pos := 0, closeErr := none } }, hseek,
      ⟨{ f with object := some { content := cont.drop (cont.length - N.toNat),
                                 pos := 0 + (cont.drop (cont.length - N.toNat)).length,
                                 closeErr := none } }, ?_⟩⟩
    unfold S3File.read
    dsimp only
    unfold streamRead
    dsimp only
    rw [List.drop_zero, htake]

/-- Claim C4 (witness): over the store holding a 4-byte `"file.txt"`,
`Seek(2, end)` then `Read` with a 2-byte buffer yields the last 2 bytes. -/
theorem c4_suffix_read_witness :
    ∃ f', S3File.seek clientFileObj fileFileTxt 2 .seekEnd = .ok (2, f')
      ∧ ∃ f'', S3File.read clientFileObj f' 2 =
          .ok ([10, 11, 12, 13].drop ([10, 11, 12, 13].length - (2 : Int).toNat), f'') :=
  (c4_seek_ranges_and_suffix_read clientFileObj fileFileTxt [10, 11, 12, 13] 1 2
    .seekStart 2 rfl (fun o => rfl) (by decide) (by decide) (by decide)).2.2.2

/-- Claim C9: on a handle with no open read stream, a successful `Seek`
returns the raw `offset` argument for every whence — with whence = end this
is the requested suffix length, not the absolute position from the start. -/
theorem c9_seek_returns_raw_offset (c : Client) (f : S3File) (offset : Int)
    (whence : Whence)
    (hobj : f.object = none) (res : Int × S3File)
    (h : S3File.seek c f offset whence = .ok res) :
    res.1 = offset := by
  unfold S3File.seek at h
  rw [hobj] at h
  cases hsr : seekRange offset whence with
  | error e => rw [hsr] at h; simp at h
  | ok o =>
    rw [hsr] at h
    obtain rfl : _ = res := (Except.ok.injEq _ _).mp h
    rfl

/-- Claim C9 (witness): `Seek(2, end)` on the fresh `"file.txt"` handle
succeeds and returns 2 (the suffix length; the object has size 4, so the
absolute position would have been 2 only by coincidence of this store — the
theorem asserts the returned value is the argument itself). -/
theorem c9_raw_offset_witness :
    ∃ res : Int × S3File,
      S3File.seek clientFileObj fileFileTxt 2 .seekEnd = .ok res ∧ res.1 = 2 := by
  refine ⟨(2, { fileFileTxt with object := some { content := [12, 13] } }), rfl, ?_⟩
  exact c9_seek_returns_raw_offset clientFileObj fileFileTxt 2 .seekEnd rfl _ rfl

/-! ## Claim C5 -/

/-- Claim C5: `Register` panics (the `none` case) exactly when a factory with
the same scheme is already registered; registering two factories with
distinct, previously absent schemes succeeds, after which `Lookup` returns
each registered factory; and `Lookup` of a scheme registered nowhere returns
the absent result — `Lookup` is total, so it never panics. -/
theorem c5_register_lookup (F : Type) (schemeOf : F → String) (r0 : Registry F)
    (f1 f2 : F) (s : String)
    (hd : schemeOf f1 ≠ schemeOf f2)
    (h1 : r0.lookup (schemeOf f1) = none)
    (h2 : r0.lookup (schemeOf f2) = none)
    (hs1 : s ≠ schemeOf f1) (hs2 : s ≠ schemeOf f2) (hs0 : r0.lookup s = none) :
    (∀ f : F, Registry.register schemeOf r0 f = none ↔ (r0.lookup (schemeOf f)).isSome)
    ∧ ∃ r1 r2 : Registry F,
        Registry.register schemeOf r0 f1 = some r1
        ∧ Registry.register schemeOf r1 f2 = some r2
        ∧ r2.lookup (schemeOf f1) = some f1
        ∧ r2.lookup (schemeOf f2) = some f2
        ∧ r2.lookup s = none := by
  constructor
  · intro f
    unfold Registry.register
    cases h : r0.lookup (schemeOf f) <;> simp
  · refine ⟨⟨(schemeOf f1, f1) :: r0.factories⟩,
      ⟨(schemeOf f2, f2) :: (schemeOf f1, f1) :: r0.factories⟩, ?_, ?_, ?_, ?_, ?_⟩
    · unfold Registry.register
      rw [h1]
    · unfold Registry.register Registry.lookup
      simp only [List.lookup]
      rw [show ((schemeOf f2 == schemeOf f1) = false) from beq_eq_false_iff_ne.mpr (Ne.symm hd)]
      unfold Registry.lookup at h2
      rw [h2]
    · unfold Registry.lookup
      simp only [List.lookup]
      rw [show ((schemeOf f1 == schemeOf f2) = false) from beq_eq_false_iff_ne.mpr hd,
        beq_self_eq_true]
    · unfold Registry.lookup
      simp only [List.lookup, beq_self_eq_true]
    · unfold Registry.lookup
      simp only [List.lookup]
      rw [show ((s == schemeOf f2) = false) from beq_eq_false_iff_ne.mpr hs2,
        show ((s == schemeOf f1) = false) from beq_eq_false_iff_ne.mpr hs1]
      exact hs0

/-- Claim C5 (witness): two concrete factories with schemes `"s3"` and
`"sftp"` registered into the empty registry, and a lookup of `"rest"`. -/
theorem c5_register_lookup_witness :
    (∀ f : String × Nat, Registry.register Prod.fst ⟨[]⟩ f = none
      ↔ ((⟨[]⟩ : Registry (String × Nat)).lookup f.1).isSome)
    ∧ ∃ r1 r2 : Registry (String × Nat),
        Registry.register Prod.fst ⟨[]⟩ ("s3", 1) = some r1
        ∧ Registry.register Prod.fst r1 ("sftp", 2) = some r2
        ∧ r2.lookup "s3" = some ("s3", 1)
        ∧ r2.lookup "sftp" = some ("sftp", 2)
        ∧ r2.lookup "rest" = none :=
  c5_register_lookup (String × Nat) Prod.fst ⟨[]⟩ ("s3", 1) ("sftp", 2) "rest"
    (by decide) rfl rfl (by decide) (by decide) rfl

/-! ## Claim C6 -/

/-- Claim C6 (code behaviour at the failing input): the `s3FS` variant's
path-level `Stat` is `OpenFile` + `Stat` + (deferred) `Close`, and the
handle's context is cancelled before it returns; but the `FS3` variant's
path-level `Stat` — here at the path `"logs"` of the repository's own test —
returns the handle exactly as `OpenFile` created it, never calling `Close`,
so its cancellable request context is not released before `Stat(path)`
returns. -/
theorem c6_fs3_stat_skips_close (c : Client) (now : Nat) (bucket : String) :
    (s3FS_stat c bucket now "logs").1 = S3File.stat c now (s3FS_openFile bucket "logs")
    ∧ (s3FS_stat c bucket now "logs").2.ctxCancelled = true
    ∧ (FS3_stat c now "logs").1 = S3File.stat c now (FS3_openFile "logs")
    ∧ (FS3_stat c now "logs").2 = FS3_openFile "logs"
    ∧ (FS3_stat c now "logs").2.ctxCancelled = false :=
  ⟨rfl, rfl, rfl, rfl, rfl⟩

/-! ## Claim C7 -/

/-- Claim C7: for both generic factory variants, a backend supplying no
`openFilesystem` function gets one that returns the structured
"unsupported filesystem type" error naming the scheme, for every
configuration, transport and limiter — the function is total, so there is no
nil-pointer-style failure. -/
theorem c7_openFilesystem_unsupported (C B F : Type) (scheme : String)
    (parseConfigFn : String → Except LocErr C)
    (stripPasswordFn : Option (String → String))
    (createH openH : C → RoundTripper → Except LocErr B)
    (createL openL : C → Limiter → Except LocErr B)
    (cfg : C) (rt : RoundTripper) (lim : Limiter) :
    (NewHTTPBackendFactory C B F scheme parseConfigFn stripPasswordFn
        createH openH none).openFilesystemFn cfg rt lim
      = .error (.unsupportedFilesystemType scheme)
    ∧ (NewLimitedBackendFactory C B F scheme parseConfigFn stripPasswordFn
        createL openL none).openFilesystemFn cfg rt lim
      = .error (.unsupportedFilesystemType scheme) :=
  ⟨rfl, rfl⟩

/-! ## Claim C8 -/

/-- Claim C8: `Close` cancels the handle's context first (the trace starts
with `cancelCtx` and the resulting handle is cancelled), fully drains any
open listing sequence — the entire remaining channel appears as one drained
step and the listing is discarded — before the read stream (every drain step
precedes the stream-close step), and returns without error whenever no read
stream is open (in particular when nothing was ever opened).  The model
function is total, so the drain of a partially consumed listing terminates. -/
theorem c8_close_cancel_drain_close (f : S3File) :
    (S3File.close f).steps.head? = some CloseStep.cancelCtx
    ∧ (S3File.close f).file.ctxCancelled = true
    ∧ (S3File.close f).file.list = none
    ∧ (∀ l, f.list = some l → CloseStep.drainList l ∈ (S3File.close f).steps)
    ∧ (f.object = none → (S3File.close f).err = none)
    ∧ (∀ i j l, (S3File.close f).steps.get? i = some (CloseStep.drainList l) →
        (S3File.close f).steps.get? j = some CloseStep.closeStream → i < j) := by
  obtain ⟨b, k, cc, obj, lst⟩ := f
  cases obj <;> cases lst <;>
    refine ⟨rfl, rfl, rfl, ?_, ?_, ?_⟩ <;>
    try simp [S3File.close]
  all_goals
    intro i j l hi hj
  all_goals
    rcases i with - | - | - | i <;> rcases j with - | - | - | j <;>
      simp_all [S3File.close, List.get?]

/-- Claim C8 (witness): closing the handle whose listing channel still holds
one undelivered entry and whose read stream was never opened drains that
entry and reports no error. -/
theorem c8_close_witness :
    CloseStep.drainList [{ key := "k/rest", size := 1, lastModified := 2 }]
      ∈ (S3File.close filePartial).steps
    ∧ (S3File.close filePartial).err = none := by
  have h := c8_close_cancel_drain_close filePartial
  exact ⟨h.2.2.2.1 _ rfl, h.2.2.2.2.1 rfl⟩

end S3AdapterProof
